import Mathlib

/-!
Shallow embedding of the querify expression compiler (src/querify/querify.py)
and proofs about its normalization, construction and rendering behaviour.

The embedding follows the source file closely:

* `JsonVal` models the JSON-compatible Python values the library consumes
  (strings, booleans, ints, floats, datetimes, lists, dicts).  Python dicts
  preserve insertion order, so a dict is an ordered association list.
  Python floats are carried opaquely as their `repr` string, since no code
  path in the library computes with them — they are only reproduced verbatim.
  Booleans are a separate constructor, but every `isinstance(x, int)` test of
  the source is translated to also accept booleans, because Python's `bool`
  is a subclass of `int`.
* `OperatorExpr.normalize_eval_expr_dict` (the filter normalizer) is a direct
  transcription of lines 306-350 of the source, split into one Lean function
  per loop/branch so the recursion is structural.
* `BExpr` models the boolean AST node family, with one renderer per target
  (`to_query_influx`, `to_query_mysql`, `to_query_mongo`, `to_query_pandas`),
  each transcribed from the corresponding Python method.  Renderers that can
  raise (`NotImplementedError` on unimplemented target/kind combinations)
  return `Option`.
* The recursive construction algorithm (`new_from_json` driven by the
  metaclass registry) is embedded fuel-indexed; the fuel is an embedding
  artifact only (`QErr.fuelExhausted` never occurs for the inputs the
  theorems evaluate).
* `QErr` models the error kinds.  The module `errors.py` itself is not under
  src/; following the spec (§7), the "unrecognized" errors act as a
  try-next-candidate signal during construction (caught together with
  registry `KeyError`s), while invalid-query errors and Python runtime
  errors (`AttributeError`, `RuntimeError` from `StopIteration` in a
  generator, `NotImplementedError`) propagate.  Error message strings are
  reproduced exactly where a claim depends on them; messages that embed a
  Python `repr` of an arbitrary fragment are abbreviated to a fixed prefix.
-/

/-- Python `datetime.datetime` values, reduced to the six fields the
library's `strftime` format strings read. -/
structure PyDateTime where
  year : Nat
  month : Nat
  day : Nat
  hour : Nat
  minute : Nat
  second : Nat
deriving DecidableEq, Repr

/-- A JSON-compatible Python value as consumed by the library. -/
inductive JsonVal : Type where
  | str (s : String)
  | bool (b : Bool)
  | int (n : Int)
  | float (r : String)
  | datetime (dt : PyDateTime)
  | list (l : List JsonVal)
  | dict (d : List (String × JsonVal))
deriving Repr

/-- A Python dict with string keys, in insertion order. -/
abbrev JsonDict := List (String × JsonVal)

/-- Error outcomes of the library, modelled from the spec (§7) since
`errors.py` is not under src/: `invalidQuery` for `InvalidQuery`,
`unrecognized` for `UnrecognizedExprType`/`UnrecognizedJsonableClass`
(the try-next-candidate signal), `keyError` for registry lookup failures,
`pyRuntime` for uncaught Python runtime errors (`AttributeError`,
`RuntimeError`, `NotImplementedError`), and `fuelExhausted` for the
embedding's fuel artifact. -/
inductive QErr : Type where
  | invalidQuery (msg : String)
  | unrecognized (msg : String)
  | keyError (msg : String)
  | pyRuntime (msg : String)
  | fuelExhausted
deriving DecidableEq, Repr

/-! ## Python string primitives

Python compares strings by code points, lexicographically; `sorted` returns
the ascending reordering.  `s.startswith('/')`, `s.endswith('/')` and the
slice `s[1:-1]` are character-based. -/

/-- Lexicographic code-point comparison of character lists; this is Python's
`<=` on strings. -/
def lexLe : List Char → List Char → Bool
  | [], _ => true
  | _ :: _, [] => false
  | a :: as, b :: bs =>
      if a.toNat < b.toNat then true
      else if b.toNat < a.toNat then false
      else lexLe as bs

/-- Python's `<=` on strings. -/
def pyStrLe (a b : String) : Bool := lexLe a.data b.data

/-- Python's `<=` on strings, as a relation. -/
def pyLe (a b : String) : Prop := pyStrLe a b = true

instance pyLe.decRel : DecidableRel pyLe := fun _ _ => inferInstanceAs (Decidable (_ = true))

/-- Python's `s.startswith('/')`. -/
def pyStartsWithSlash (s : String) : Bool := s.data.head? = some '/'

/-- Python's `s.endswith('/')`. -/
def pyEndsWithSlash (s : String) : Bool := s.data.getLast? = some '/'

/-- Python's slice `s[1:-1]`. -/
def pyStripEnds (s : String) : String := String.mk ((s.data.drop 1).dropLast)

/-- Python's `repr` of a boolean. -/
def pyReprBool (b : Bool) : String := if b then "True" else "False"

/-- Zero-padded two-digit rendering, as in `strftime` `%H`/`%M`/`%S`/`%m`/`%d`. -/
def pad2 (n : Nat) : String := if n < 10 then "0" ++ toString n else toString n

/-- Zero-padded four-digit rendering, as in `strftime` `%Y`. -/
def pad4 (n : Nat) : String :=
  if n < 10 then "000" ++ toString n
  else if n < 100 then "00" ++ toString n
  else if n < 1000 then "0" ++ toString n
  else toString n

/-- Python's `sorted` on a list of strings: the ascending reordering under
code-point comparison. -/
def pysorted (l : List String) : List String := List.insertionSort pyLe l

/-! ## The filter normalizer

`OperatorExpr.normalize_eval_expr_dict` (source lines 306-350) rewrites a
loosely-structured filter dict into canonical nested form.  The Python
method accumulates a list `exprs` of canonical sub-dicts (one or more per
input entry) and finally wraps them: two or more entries under `__and__`,
a single entry returned bare, zero entries as the empty dict.

The loop body is split into the functions below; each corresponds to one
branch of the source:

* `normEntry` — the body of `for tag, tag_filter in filter.items()`;
* `normOp` / `normOps` — the inner `for op, condition in tag_filter.items()`;
* `normDicts` — the recursive normalization of every element of a list
  bound to `__and__`/`__or__` (a non-dict element makes Python's
  `filter.items()` raise `AttributeError`);
* `finalizeExprs` — the final wrap-up of the accumulated `exprs` list.
-/

/-- List expansion `[{tag: {'__eq__': v}} for v in l]` used for implicit
disjunctions (source lines 323 and 333). -/
def eqExprs (tag : String) (l : List JsonVal) : List JsonVal :=
  l.map (fun w => .dict [(tag, .dict [("__eq__", w)])])

/-- Final wrap-up of the accumulated `exprs` list (source lines 345-350). -/
def finalizeExprs : List JsonDict → JsonDict
  | [] => []
  | [e] => e
  | es => [("__and__", .list (es.map .dict))]

/-- One `(op, condition)` pair of an operator-mapping value
(source lines 328-339). -/
def normOp (tag op : String) (c : JsonVal) : Except QErr JsonDict :=
  match c with
  | .str _ | .int _ | .float _ | .bool _ | .datetime _ => pure [(tag, .dict [(op, c)])]
  | .list l =>
      if op = "__in__" then pure [("__or__", .list (eqExprs tag l))]
      else throw (.invalidQuery ("\"" ++ op ++ "\" operator cannot be applied on a list."))
  | .dict _ => throw (.invalidQuery "Query condition is unrecognized: ")

/-- The loop `for op, condition in tag_filter.items()` (source lines 328-339). -/
def normOps (tag : String) : JsonDict → Except QErr (List JsonDict)
  | [] => pure []
  | (op, c) :: r => do
      let e ← normOp tag op c
      let es ← normOps tag r
      pure (e :: es)

mutual

/-- The loop `for tag, tag_filter in filter.items()`, accumulating the
`exprs` list (source lines 308-344). -/
def normEntries : JsonDict → Except QErr (List JsonDict)
  | [] => pure []
  | (tag, v) :: rest => do
      let es ← normEntry tag v
      let rest' ← normEntries rest
      pure (es ++ rest')

/-- The canonical sub-dicts contributed by one `(tag, tag_filter)` entry
(source lines 310-344).  Only the `__and__` branch contributes more than
one. -/
def normEntry (tag : String) : JsonVal → Except QErr (List JsonDict)
  | .str s =>
      if pyStartsWithSlash s && pyEndsWithSlash s then
        pure [[(tag, .dict [("__regex__", .str (pyStripEnds s))])]]
      else
        pure [[(tag, .dict [("__eq__", .str s)])]]
  | .int n => pure [[(tag, .dict [("__eq__", .int n)])]]
  | .float r => pure [[(tag, .dict [("__eq__", .float r)])]]
  | .bool b => pure [[(tag, .dict [("__eq__", .bool b)])]]
  | .list l =>
      if tag = "__and__" then normDicts l
      else if tag = "__or__" then do
        let ds ← normDicts l
        pure [[("__or__", .list (ds.map .dict))]]
      else pure [[("__or__", .list (eqExprs tag l))]]
  | .dict d =>
      if tag = "__not__" then do
        let ds ← normEntries d
        pure [[("__not__", .dict (finalizeExprs ds))]]
      else normOps tag d
  | .datetime _ =>
      throw (.invalidQuery ("Invalid query. A tag filter must be of one of the following types: " ++
        "regex / string / numerical / list / a dict of operator and operand."))

/-- Recursive normalization of every element of a list bound to
`__and__`/`__or__` (source lines 319 and 321); a non-dict element makes
Python's `filter.items()` raise `AttributeError`. -/
def normDicts : List JsonVal → Except QErr (List JsonDict)
  | [] => pure []
  | .dict d :: r => do
      let ds ← normEntries d
      let rest ← normDicts r
      pure (finalizeExprs ds :: rest)
  | _ :: _ => throw (.pyRuntime "AttributeError: items")

end

/-- Method `OperatorExpr.normalize_eval_expr_dict` (source lines 306-350). -/
def OperatorExpr.normalize_eval_expr_dict (filter : JsonDict) : Except QErr JsonDict :=
  (normEntries filter).map finalizeExprs

/-! ## The AST node family

`Expr` subclasses in the source: literal leaves (`StringLiteral`,
`BooleanLiteral`, `IntLiteral`, `FloatLiteral`, `DateTimeLiteral`,
`RegexLiteral`, `SchemaLiteral`) and the boolean operator family (`Not`,
the `BinaryBooleanExpr` comparisons, `Null`, `Missing`, `And`, `Or`).
A `SchemaLiteral` always wraps a string, so the `left` slot of a binary
node is carried as a `String`; `Null`/`Missing` validate at construction
that `right` is a `BooleanLiteral`, so their right slot is a `Bool`. -/

/-- A data literal leaf (`LiteralExpr` subclasses other than `SchemaLiteral`). -/
inductive Lit : Type where
  | str (s : String)
  | bool (b : Bool)
  | int (n : Int)
  | float (r : String)
  | datetime (dt : PyDateTime)
  | regex (p : String)
deriving DecidableEq, Repr

/-- Comparison operator kinds of the `BinaryBooleanExpr` family (excluding
`Null`/`Missing`, which carry no infix operator metadata). -/
inductive BinOp : Type where
  | eq | neq | gt | gte | lt | lte | regex | iregex
deriving DecidableEq, Repr

/-- A boolean expression AST node. -/
inductive BExpr : Type where
  | not (operand : BExpr)
  | binop (op : BinOp) (left : String) (right : Lit)
  | null (left : String) (right : Bool)
  | missing (left : String) (right : Bool)
  | and (exprs : List BExpr)
  | or (exprs : List BExpr)
deriving Repr

/-- A structured MongoDB query value (output of `to_query_mongo`): JSON-like
values plus `None`, compiled regex patterns and native datetimes. -/
inductive MongoVal : Type where
  | str (s : String)
  | bool (b : Bool)
  | int (n : Int)
  | float (r : String)
  | datetime (dt : PyDateTime)
  | nullVal
  | regex (p : String)
  | list (l : List MongoVal)
  | dict (d : List (String × MongoVal))
deriving Repr

/-! ## Literal renderers (source lines 169-293) -/

/-- InfluxQL rendering of `'{:%Y-%m-%dT%H:%M:%SZ}'.format(dt)`. -/
def PyDateTime.influxFmt (dt : PyDateTime) : String :=
  "'" ++ pad4 dt.year ++ "-" ++ pad2 dt.month ++ "-" ++ pad2 dt.day ++ "T" ++
    pad2 dt.hour ++ ":" ++ pad2 dt.minute ++ ":" ++ pad2 dt.second ++ "Z'"

/-- MySQL rendering of `'{:%Y-%m-%d %H:%M:%S}'.format(dt)`. -/
def PyDateTime.mysqlFmt (dt : PyDateTime) : String :=
  "'" ++ pad4 dt.year ++ "-" ++ pad2 dt.month ++ "-" ++ pad2 dt.day ++ " " ++
    pad2 dt.hour ++ ":" ++ pad2 dt.minute ++ ":" ++ pad2 dt.second ++ "'"

/-- Renderer `to_query_influx` of each data literal class (every class defines it). -/
def Lit.to_query_influx : Lit → String
  | .str s => "'" ++ s ++ "'"
  | .bool b => pyReprBool b
  | .int n => toString n
  | .float r => r
  | .datetime dt => dt.influxFmt
  | .regex p => "/" ++ p ++ "/"

/-- Renderer `to_query_mysql` of each data literal class (every class defines it). -/
def Lit.to_query_mysql : Lit → String
  | .str s => "'" ++ s ++ "'"
  | .bool b => pyReprBool b
  | .int n => toString n
  | .float r => r
  | .datetime dt => dt.mysqlFmt
  | .regex p => "'" ++ p ++ "'"

/-- Renderer `to_query_pandas` of each data literal class; `DateTimeLiteral` and
`RegexLiteral` do not define it, so the inherited method raises
`NotImplementedError` (modelled as `none`). -/
def Lit.to_query_pandas : Lit → Option String
  | .str s => some ("'" ++ s ++ "'")
  | .bool b => some (pyReprBool b)
  | .int n => some (toString n)
  | .float r => some r
  | .datetime _ => Option.none
  | .regex _ => Option.none

/-- Renderer `to_query_mongo` of each data literal class; `RegexLiteral` compiles
the pattern (`re.compile`), the rest pass the native value through. -/
def Lit.to_query_mongo : Lit → MongoVal
  | .str s => .str s
  | .bool b => .bool b
  | .int n => .int n
  | .float r => .float r
  | .datetime dt => .datetime dt
  | .regex p => .regex p

/-- Renderer `SchemaLiteral.to_query_influx`: double-quoted. -/
def schemaInflux (f : String) : String := "\"" ++ f ++ "\""

/-! ## Operator metadata (class attributes of the node kinds) -/

/-- Token `operator_influx` of each comparison kind. -/
def BinOp.operator_influx : BinOp → String
  | .eq => "=" | .neq => "!=" | .gt => ">" | .gte => ">="
  | .lt => "<" | .lte => "<=" | .regex => "=~" | .iregex => "!~"

/-- Token `operator_mysql` of each comparison kind. -/
def BinOp.operator_mysql : BinOp → String
  | .eq => "=" | .neq => "<>" | .gt => ">" | .gte => ">="
  | .lt => "<" | .lte => "<=" | .regex => "REGEXP" | .iregex => "NOT REGEXP"

/-- Token `operator_mongo` of each comparison kind; `MatchRegex`/`InverseMatchRegex`
inherit `None` but override `to_query_mongo`, so their token is never read. -/
def BinOp.operator_mongo : BinOp → String
  | .eq => "$eq" | .neq => "$ne" | .gt => "$gt" | .gte => "$gte"
  | .lt => "$lt" | .lte => "$lte" | .regex => "None" | .iregex => "None"

/-- Token `operator_pandas` of each comparison kind; `MatchRegex`/`InverseMatchRegex`
inherit `None`, which Python's `format` renders as the text `None`. -/
def BinOp.operator_pandas : BinOp → String
  | .eq => "==" | .neq => "!=" | .gt => ">" | .gte => ">="
  | .lt => "<" | .lte => "<=" | .regex => "None" | .iregex => "None"

/-! ## Expression renderers (source lines 395-618)

String targets return `Option String`: `none` models a raised
`NotImplementedError` (`Not` has no InfluxQL renderer — it is commented out
in the source — and regex/datetime literals have no pandas renderer).
`Null`/`Missing` inherit the generic binary renderer where they define
none of their own, so a `None` operator token renders as the text `None`
(Python `format`).  Conjunction/disjunction renderers parenthesize each
child fragment, sort the fragments (Python `sorted`) and join them with
the target's infix token; the MongoDB renderer instead emits the child
values in construction order.  `Not.to_query_mongo` takes the first item
`(k, v)` of the child's rendered mapping and returns `{k: {'$not': v}}`;
every node kind renders to a single-entry mapping for MongoDB, so the
fallthrough branch for a childless mapping is unreachable (Python would
raise `RuntimeError` from `StopIteration`). -/

mutual

/-- Renderer `to_query_influx` of each boolean node kind. -/
def BExpr.to_query_influx : BExpr → Option String
  | .not _ => Option.none
  | .binop op l r => some (schemaInflux l ++ " " ++ op.operator_influx ++ " " ++ r.to_query_influx)
  | .null l r => some (schemaInflux l ++ " None " ++ pyReprBool r)
  | .missing l r => some (schemaInflux l ++ " None " ++ pyReprBool r)
  | .and es => (influxFrags es).map (fun fs => String.intercalate " AND " (pysorted fs))
  | .or es => (influxFrags es).map (fun fs => String.intercalate " OR " (pysorted fs))

/-- Parenthesized InfluxQL child fragments, in construction order. -/
def influxFrags : List BExpr → Option (List String)
  | [] => some []
  | e :: r => do
      let s ← e.to_query_influx
      let rest ← influxFrags r
      pure (("(" ++ s ++ ")") :: rest)

end

mutual

/-- Renderer `to_query_mysql` of each boolean node kind. -/
def BExpr.to_query_mysql : BExpr → Option String
  | .not e => (e.to_query_mysql).map (fun s => "NOT (" ++ s ++ ")")
  | .binop op l r => some (l ++ " " ++ op.operator_mysql ++ " " ++ r.to_query_mysql)
  | .null l r => some (l ++ " " ++ (if r then "is NULL" else "is NOT NULL"))
  | .missing l r => some (l ++ " None " ++ pyReprBool r)
  | .and es => (mysqlFrags es).map (fun fs => String.intercalate " AND " (pysorted fs))
  | .or es => (mysqlFrags es).map (fun fs => String.intercalate " OR " (pysorted fs))

/-- Parenthesized MySQL child fragments, in construction order. -/
def mysqlFrags : List BExpr → Option (List String)
  | [] => some []
  | e :: r => do
      let s ← e.to_query_mysql
      let rest ← mysqlFrags r
      pure (("(" ++ s ++ ")") :: rest)

end

mutual

/-- Renderer `to_query_pandas` of each boolean node kind. -/
def BExpr.to_query_pandas : BExpr → Option String
  | .not e => (e.to_query_pandas).map (fun s => "~(" ++ s ++ ")")
  | .binop op l r => (r.to_query_pandas).map (fun rs => l ++ " " ++ op.operator_pandas ++ " " ++ rs)
  | .null l r => some ((if r then "" else "~") ++ "pandas.isnull(" ++ l ++ ")")
  | .missing l r => some (l ++ " None " ++ pyReprBool r)
  | .and es => (pandasFrags es).map (fun fs => String.intercalate " & " (pysorted fs))
  | .or es => (pandasFrags es).map (fun fs => String.intercalate " | " (pysorted fs))

/-- Parenthesized pandas child fragments, in construction order. -/
def pandasFrags : List BExpr → Option (List String)
  | [] => some []
  | e :: r => do
      let s ← e.to_query_pandas
      let rest ← pandasFrags r
      pure (("(" ++ s ++ ")") :: rest)

end

mutual

/-- Renderer `to_query_mongo` of each boolean node kind. -/
def BExpr.to_query_mongo : BExpr → MongoVal
  | .not e =>
      match e.to_query_mongo with
      | .dict ((k, v) :: _) => .dict [(k, .dict [("$not", v)])]
      | m => m
  | .binop .regex l r => .dict [(l, r.to_query_mongo)]
  | .binop .iregex l r => .dict [(l, .dict [("$not", r.to_query_mongo)])]
  | .binop op l r => .dict [(l, .dict [(op.operator_mongo, r.to_query_mongo)])]
  | .null l r => .dict [(l, .dict [((if r then "$eq" else "$ne"), .nullVal)])]
  | .missing l r => .dict [(l, .dict [("$exists", .int (if r then 1 else -1))])]
  | .and es => .dict [("$and", .list (mongoVals es))]
  | .or es => .dict [("$or", .list (mongoVals es))]

/-- MongoDB child values, in construction order. -/
def mongoVals : List BExpr → List MongoVal
  | [] => []
  | e :: r => e.to_query_mongo :: mongoVals r

end

/-! ## The expression builder

`ClassFromJsonWithSubclassDictMeta.new_from_json` (source lines 58-78)
iterates candidate keys derived from the JSON shape
(`cls_keys_from_json`), looks each key up in the registry scope, and for a
final class derives constructor arguments (`init_args_from_json`) and
constructs the node.  Registry misses (`KeyError`) and "unrecognized"
errors make it try the next candidate; constructor validation errors
(`InvalidQuery`) propagate.  `OperatorExpr.new_from_json` (source lines
352-360) first normalizes the filter, then runs the generic algorithm
against the boolean-operator scope.

The recursion is fuel-indexed (each call site passes a strictly smaller
fuel); exhausting the fuel is an artifact of the embedding and never
happens for the inputs evaluated in the theorems below. -/

/-- The boolean-operator registry scope: `OperatorExpr.subclasses`, keyed by
the `key` class attribute of each final node class. -/
inductive OpKind : Type where
  | notOp
  | binOp (op : BinOp)
  | nullOp
  | missingOp
  | andOp
  | orOp
deriving DecidableEq, Repr

/-- Registry lookup `OperatorExpr[key]` (source lines 38-45); `none` models
`KeyError`. -/
def subclassForKey : String → Option OpKind
  | "__not__" => some .notOp
  | "__eq__" => some (.binOp .eq)
  | "__neq__" => some (.binOp .neq)
  | "__gt__" => some (.binOp .gt)
  | "__gte__" => some (.binOp .gte)
  | "__lt__" => some (.binOp .lt)
  | "__lte__" => some (.binOp .lte)
  | "__regex__" => some (.binOp .regex)
  | "__iregex__" => some (.binOp .iregex)
  | "__null__" => some .nullOp
  | "__missing__" => some .missingOp
  | "__and__" => some .andOp
  | "__or__" => some .orOp
  | _ => Option.none

/-- Method `OperatorExpr.cls_keys_from_json` (source lines 362-367): the first key
of the mapping, then — when the first value is a nonempty mapping — its
inner first key.  `none` models the generator raising on an empty mapping
(`next(iter(json.items()))` escalates to `RuntimeError`). -/
def OperatorExpr.cls_keys_from_json (j : JsonDict) : Option (List String) :=
  match j with
  | [] => Option.none
  | (k, v) :: _ => some (k :: (match v with | .dict ((k2, _) :: _) => [k2] | _ => []))

/-- Method `LiteralExpr.from_json` applied to a raw JSON value: the runtime type of
the value is the candidate key into the literal scope (source lines
157-163), so scalars wrap as the matching literal class and mappings/lists
fail (no literal class is keyed by `dict`/`list`), surfaced by `from_json`
as `InvalidQuery` (source lines 119-121). -/
def LiteralExpr.from_json_val (j : JsonVal) : Except QErr Lit :=
  match j with
  | .str s => .ok (.str s)
  | .bool b => .ok (.bool b)
  | .int n => .ok (.int n)
  | .float r => .ok (.float r)
  | .datetime dt => .ok (.datetime dt)
  | _ => .error (.invalidQuery "Unexpected expression type for json. Expected \"LiteralExpr\".")

/-- Method `RegexLiteral.from_json` applied to a raw JSON value: the candidate key
is always `'regex'`, and `RegexLiteral.__init__` validates that the wrapped
value is a string (source lines 251-256). -/
def RegexLiteral.from_json_val (j : JsonVal) : Except QErr Lit :=
  match j with
  | .str s => .ok (.regex s)
  | _ => .error (.invalidQuery "Invalid type of literal. Expected \"regex\".")

/-- Constructor `Null.__init__` (source lines 539-543): the generic binary constructor
coerces `right` into a literal, then the subclass requires a
`BooleanLiteral`. -/
def Null.init (left : String) (right : JsonVal) : Except QErr BExpr := do
  let r ← LiteralExpr.from_json_val right
  match r with
  | .bool b => pure (.null left b)
  | _ => throw (.invalidQuery "The operand of \"__null__\" must be either true or false.")

/-- Constructor `Missing.__init__` (source lines 559-563), same shape as `Null.__init__`. -/
def Missing.init (left : String) (right : JsonVal) : Except QErr BExpr := do
  let r ← LiteralExpr.from_json_val right
  match r with
  | .bool b => pure (.missing left b)
  | _ => throw (.invalidQuery "The operand of \"__missing__\" must be either true or false.")

mutual

/-- Method `BooleanExpr.new_from_json` on a filter dict, inherited from
`OperatorExpr` (source lines 352-360): normalize, then run the candidate
loop of the metaclass algorithm. -/
def BooleanExpr.new_from_json : Nat → JsonDict → Except QErr BExpr
  | 0, _ => throw .fuelExhausted
  | fuel + 1, j => do
      let n ← OperatorExpr.normalize_eval_expr_dict j
      match OperatorExpr.cls_keys_from_json n with
      | Option.none => throw (.pyRuntime "RuntimeError: generator raised StopIteration")
      | some ks => tryCandidates fuel ks n

/-- The candidate loop of `new_from_json` (source lines 58-78): registry
misses and unrecognized errors fall through to the next candidate, other
errors propagate, and an exhausted candidate list raises
`UnrecognizedJsonableClass`. -/
def tryCandidates : Nat → List String → JsonDict → Except QErr BExpr
  | 0, _, _ => throw .fuelExhausted
  | _ + 1, [], _ => throw (.unrecognized "cannot recognize class from json")
  | fuel + 1, k :: rest, j =>
      match subclassForKey k with
      | Option.none => tryCandidates fuel rest j
      | some kind =>
          match buildFinal fuel kind j with
          | .ok e => .ok e
          | .error (.keyError _) => tryCandidates fuel rest j
          | .error (.unrecognized _) => tryCandidates fuel rest j
          | .error err => .error err

/-- Method `init_args_from_json` plus the constructor of one final node class
(source lines 380-386, 424-431, 513-515, 527-529, 539-543, 559-563,
570-574, 591-597).  `init_args_from_json` reads the first item of the
mapping; on an empty mapping it returns `None`, which `new_from_json`
turns into the catchable "no init args" unrecognized error. -/
def buildFinal : Nat → OpKind → JsonDict → Except QErr BExpr
  | 0, _, _ => throw .fuelExhausted
  | _ + 1, _, [] => throw (.unrecognized "class is marked final but no init args are defined")
  | fuel + 1, .notOp, (_, v) :: _ => (BooleanExpr.from_json_val fuel v).map .not
  | fuel + 1, .andOp, (_, v) :: _ =>
      match v with
      | .list l => (BooleanExpr.from_json_list fuel l).map .and
      | _ => throw (.invalidQuery "The \"__and__\" operator is not applied on a list.")
  | fuel + 1, .orOp, (_, v) :: _ =>
      match v with
      | .list l => (BooleanExpr.from_json_list fuel l).map .or
      | _ => throw (.invalidQuery "The \"__or__\" operator is not applied on a list.")
  | _ + 1, .binOp op, (left, rexpr) :: _ =>
      match rexpr with
      | .dict [] => throw (.unrecognized "class is marked final but no init args are defined")
      | .dict ((_, right) :: _) => do
          let r ← LiteralExpr.from_json_val right
          match op with
          | .regex | .iregex => do
              let rr ← RegexLiteral.from_json_val right
              pure (.binop op left rr)
          | _ => pure (.binop op left r)
      | _ => throw (.pyRuntime "AttributeError: items")
  | _ + 1, .nullOp, (left, rexpr) :: _ =>
      match rexpr with
      | .dict [] => throw (.unrecognized "class is marked final but no init args are defined")
      | .dict ((_, right) :: _) => Null.init left right
      | _ => throw (.pyRuntime "AttributeError: items")
  | _ + 1, .missingOp, (left, rexpr) :: _ =>
      match rexpr with
      | .dict [] => throw (.unrecognized "class is marked final but no init args are defined")
      | .dict ((_, right) :: _) => Missing.init left right
      | _ => throw (.pyRuntime "AttributeError: items")

/-- Method `BooleanExpr.from_json` on the elements of a logical node's list
(source line 574). -/
def BooleanExpr.from_json_list : Nat → List JsonVal → Except QErr (List BExpr)
  | 0, _ => throw .fuelExhausted
  | _ + 1, [] => pure []
  | fuel + 1, v :: r => do
      let e ← BooleanExpr.from_json_val fuel v
      let es ← BooleanExpr.from_json_list fuel r
      pure (e :: es)

/-- Method `BooleanExpr.from_json` applied to a raw JSON value (source lines
110-122): construct via `new_from_json`; an escaping
`UnrecognizedJsonableClass` is re-surfaced as `InvalidQuery`.  A non-dict
value reaches `normalize_eval_expr_dict`, whose `filter.items()` raises
`AttributeError`. -/
def BooleanExpr.from_json_val : Nat → JsonVal → Except QErr BExpr
  | 0, _ => throw .fuelExhausted
  | fuel + 1, .dict d =>
      match BooleanExpr.new_from_json fuel d with
      | .error (.unrecognized _) =>
          .error (.invalidQuery "Unexpected expression type for json. Expected \"BooleanExpr\".")
      | r => r
  | _ + 1, _ => throw (.pyRuntime "AttributeError: items")

end

/-- An argument to `Expr.from_json`: either an already-constructed node of
the boolean family or a JSON value. -/
inductive ExprOrJson : Type where
  | expr (e : BExpr)
  | json (j : JsonVal)

/-- Method `BooleanExpr.from_json` (source lines 110-122): an argument that already
is a node of the expected family passes through unchanged; otherwise the
value is constructed from JSON. -/
def BooleanExpr.from_json (fuel : Nat) : ExprOrJson → Except QErr BExpr
  | .expr e => pure e
  | .json v => BooleanExpr.from_json_val fuel v

/-! ## Auxiliary definitions used by the theorems -/

mutual

/-- Size of a JSON value, used for strong induction over the normalizer's
recursion structure. -/
def jsize : JsonVal → Nat
  | .str _ => 1
  | .bool _ => 1
  | .int _ => 1
  | .float _ => 1
  | .datetime _ => 1
  | .list l => 1 + jsizeL l
  | .dict d => 1 + jsizeD d

/-- Size of a JSON list. -/
def jsizeL : List JsonVal → Nat
  | [] => 0
  | v :: r => jsize v + jsizeL r

/-- Size of a JSON dict. -/
def jsizeD : List (String × JsonVal) → Nat
  | [] => 0
  | (_, v) :: r => jsize v + jsizeD r

end

/-- A Python scalar in the sense of the normalizer's `isinstance` tests
(`str`, `int` — including `bool` — `float`, `datetime`). -/
def isPyScalar : JsonVal → Bool
  | .str _ | .bool _ | .int _ | .float _ | .datetime _ => true
  | _ => false

/-- A list value all of whose elements are Python scalars. -/
def isScalarList : JsonVal → Bool
  | .list l => l.all isPyScalar
  | _ => false

mutual

/-- Well-formed filters: the fragment of filter dicts on which the
normalizer's output is a fixed point (every value bound to `__not__` is a
mapping, every list bound to a plain field name or fed to `__in__` holds
only scalars, and every element of a list bound to `__and__`/`__or__` is
itself a well-formed filter dict). -/
def wfFilter : JsonDict → Bool
  | [] => true
  | (tag, v) :: rest => wfEntry tag v && wfFilter rest

/-- Well-formedness of one filter entry. -/
def wfEntry (tag : String) (v : JsonVal) : Bool :=
  match v with
  | .str _ => tag != "__not__"
  | .int _ => tag != "__not__"
  | .float _ => tag != "__not__"
  | .bool _ => tag != "__not__"
  | .datetime _ => tag != "__not__"
  | .list l =>
      if tag = "__and__" || tag = "__or__" then wfElems l
      else tag != "__not__" && l.all isPyScalar
  | .dict d => if tag = "__not__" then wfFilter d else wfConds d

/-- Well-formedness of the elements of a list bound to `__and__`/`__or__`:
every element is a well-formed filter dict. -/
def wfElems : List JsonVal → Bool
  | [] => true
  | .dict d :: r => wfFilter d && wfElems r
  | _ :: _ => false

/-- Well-formedness of the conditions of an operator mapping: every operand
is a scalar or a list of scalars. -/
def wfConds : JsonDict → Bool
  | [] => true
  | (_, c) :: r => (isPyScalar c || isScalarList c) && wfConds r

end

/-- Generic form of the per-target fragment builders (`influxFrags`,
`mysqlFrags`, `pandasFrags`): parenthesize each child's rendering in
construction order, failing if any child fails. -/
def optMapFrags (f : BExpr → Option String) : List BExpr → Option (List String)
  | [] => some []
  | e :: r => do
      let s ← f e
      let rest ← optMapFrags f r
      pure (("(" ++ s ++ ")") :: rest)

/-- The spec's end-to-end example 1 filter,
`{"host": "web1", "status": {"__gt__": 200}}`. -/
def exampleFilter1 : JsonDict :=
  [("host", .str "web1"), ("status", .dict [("__gt__", .int 200)])]

/-- The canonical form of `exampleFilter1`: a two-branch conjunction. -/
def exampleFilter1Canonical : JsonDict :=
  [("__and__", .list [.dict [("host", .dict [("__eq__", .str "web1")])],
                      .dict [("status", .dict [("__gt__", .int 200)])]])]

/-! ## Properties of the Python string order -/

/-- Characters with equal code points are equal. -/
theorem char_toNat_inj {a b : Char} (h : a.toNat = b.toNat) : a = b :=
  Char.eq_of_val_eq (UInt32.eq_of_toBitVec_eq (BitVec.eq_of_toNat_eq h))

/-- The lexicographic comparison is total. -/
theorem lexLe_total (as bs : List Char) : lexLe as bs = true ∨ lexLe bs as = true := by
  induction as generalizing bs with
  | nil => left; rfl
  | cons a as ih =>
    cases bs with
    | nil => right; rfl
    | cons b bs =>
      simp only [lexLe]
      rcases Nat.lt_trichotomy a.toNat b.toNat with h | h | h
      · left; simp [h]
      · rcases ih bs with h' | h' <;> [left; right] <;>
          simp [show ¬ a.toNat < b.toNat by omega, show ¬ b.toNat < a.toNat by omega, h']
      · right; simp [h]

/-- The lexicographic comparison is transitive. -/
theorem lexLe_trans : ∀ {as bs cs : List Char},
    lexLe as bs = true → lexLe bs cs = true → lexLe as cs = true := by
  intro as
  induction as with
  | nil => intros; rfl
  | cons a as ih =>
    intro bs cs h1 h2
    cases bs with
    | nil => simp [lexLe] at h1
    | cons b bs =>
      cases cs with
      | nil => simp [lexLe] at h2
      | cons c cs =>
        simp only [lexLe] at h1 h2 ⊢
        rcases Nat.lt_trichotomy a.toNat b.toNat with hab | hab | hab
        · rcases Nat.lt_trichotomy b.toNat c.toNat with hbc | hbc | hbc
          · simp [show a.toNat < c.toNat by omega]
          · simp [show a.toNat < c.toNat by omega]
          · simp [show ¬ b.toNat < c.toNat by omega, hbc] at h2
        · rcases Nat.lt_trichotomy b.toNat c.toNat with hbc | hbc | hbc
          · simp [show a.toNat < c.toNat by omega]
          · have h1' : lexLe as bs = true := by
              simpa [show ¬ a.toNat < b.toNat by omega, show ¬ b.toNat < a.toNat by omega] using h1
            have h2' : lexLe bs cs = true := by
              simpa [show ¬ b.toNat < c.toNat by omega, show ¬ c.toNat < b.toNat by omega] using h2
            simp [show ¬ a.toNat < c.toNat by omega, show ¬ c.toNat < a.toNat by omega, ih h1' h2']
          · simp [show ¬ b.toNat < c.toNat by omega, hbc] at h2
        · simp [show ¬ a.toNat < b.toNat by omega, hab] at h1

/-- The lexicographic comparison is antisymmetric. -/
theorem lexLe_antisymm : ∀ {as bs : List Char},
    lexLe as bs = true → lexLe bs as = true → as = bs := by
  intro as
  induction as with
  | nil =>
    intro bs _ h2
    cases bs with
    | nil => rfl
    | cons b bs => simp [lexLe] at h2
  | cons a as ih =>
    intro bs h1 h2
    cases bs with
    | nil => simp [lexLe] at h1
    | cons b bs =>
      simp only [lexLe] at h1 h2
      rcases Nat.lt_trichotomy a.toNat b.toNat with h | h | h
      · simp [show ¬ b.toNat < a.toNat by omega, h] at h2
      · have h1' : lexLe as bs = true := by
          simpa [show ¬ a.toNat < b.toNat by omega, show ¬ b.toNat < a.toNat by omega] using h1
        have h2' : lexLe bs as = true := by
          simpa [show ¬ a.toNat < b.toNat by omega, show ¬ b.toNat < a.toNat by omega] using h2
        rw [char_toNat_inj h, ih h1' h2']
      · simp [show ¬ a.toNat < b.toNat by omega, h] at h1

instance pyLe.isTotal : IsTotal String pyLe := ⟨fun a b => lexLe_total a.data b.data⟩

instance pyLe.isTrans : IsTrans String pyLe := ⟨fun _ _ _ => lexLe_trans⟩

instance pyLe.isAntisymm : IsAntisymm String pyLe :=
  ⟨fun _ _ h1 h2 => String.ext (lexLe_antisymm h1 h2)⟩

/-- Python's `sorted` depends only on the multiset of strings, not their
order: permuted inputs sort identically. -/
theorem pysorted_perm {l l' : List String} (h : l.Perm l') : pysorted l = pysorted l' := by
  apply List.eq_of_perm_of_sorted (r := pyLe)
  · exact ((List.perm_insertionSort _ l).trans h).trans (List.perm_insertionSort _ l').symm
  · exact List.sorted_insertionSort _ l
  · exact List.sorted_insertionSort _ l'

/-! ## C1 — end-to-end example 1 (relational target)

The claim's rendered fragment `host = 'web1' AND status > 200` is wrong:
`LogicalExpr.to_query_mysql` (source line 580) parenthesizes every child
fragment before joining, so the conjunction renders as
`(host = 'web1') AND (status > 200)`. -/

/-- C1 counterexample: building the spec's example-1 filter and rendering it
for the relational (MySQL) target does not produce the claimed fragment
`host = 'web1' AND status > 200`. -/
theorem c1_counterexample :
    (BooleanExpr.from_json 32 (.json (.dict exampleFilter1))).map BExpr.to_query_mysql ≠
      .ok (some "host = 'web1' AND status > 200") := by
  have e : (BooleanExpr.from_json 32 (.json (.dict exampleFilter1))).map BExpr.to_query_mysql =
      .ok (some "(host = 'web1') AND (status > 200)") := rfl
  rw [e]
  simp

/-- C1 (amended): the filter `{"host": "web1", "status": {"__gt__": 200}}`
normalizes to a two-branch conjunction, and building and rendering it for
the relational (MySQL) target yields exactly the fragment
`(host = 'web1') AND (status > 200)` (each child fragment parenthesized,
children in sorted order). -/
theorem c1_amended :
    OperatorExpr.normalize_eval_expr_dict exampleFilter1 = .ok exampleFilter1Canonical ∧
    (BooleanExpr.from_json 32 (.json (.dict exampleFilter1))).map BExpr.to_query_mysql =
      .ok (some "(host = 'web1') AND (status > 200)") :=
  ⟨rfl, rfl⟩

/-! ## C3 — top-level combination rule of the normalizer -/

/-- C3: when normalization succeeds, the entries contributed by the filter's
items are combined exactly as the source's final wrap-up does: two or more
entries under a canonical `__and__` conjunction, exactly one entry returned
bare, and the empty filter mapping normalized to the empty mapping. -/
theorem c3_toplevel_combination (f : JsonDict) (es : List JsonDict)
    (h : normEntries f = .ok es) :
    (2 ≤ es.length →
      OperatorExpr.normalize_eval_expr_dict f = .ok [("__and__", .list (es.map .dict))]) ∧
    (∀ e, es = [e] → OperatorExpr.normalize_eval_expr_dict f = .ok e) ∧
    OperatorExpr.normalize_eval_expr_dict ([] : JsonDict) = .ok ([] : JsonDict) := by
  refine ⟨?_, ?_, rfl⟩
  · intro hlen
    unfold OperatorExpr.normalize_eval_expr_dict
    rw [h]
    match es, hlen with
    | a :: b :: rest, _ => rfl
  · intro e he
    unfold OperatorExpr.normalize_eval_expr_dict
    rw [h, he]
    rfl

/-- C3 witness: a two-entry filter normalizes to the canonical conjunction
of its two contributed entries. -/
theorem c3_witness :
    normEntries exampleFilter1 =
      .ok [[("host", .dict [("__eq__", .str "web1")])],
           [("status", .dict [("__gt__", .int 200)])]] ∧
    OperatorExpr.normalize_eval_expr_dict exampleFilter1 = .ok exampleFilter1Canonical :=
  ⟨rfl, (c3_toplevel_combination exampleFilter1 _ rfl).1 (by decide)⟩

/-! ## C5 — negation push-down for the document-store target -/

/-- C5: for the document-store (MongoDB) target, rendering the negation of a
single equality comparison rewrites the child's `{field: value}` mapping
into `{field: {'$not': value}}` — the result stays keyed by the field, with
no top-level negation wrapper. -/
theorem c5_negation_pushdown (f : String) (v : Lit) :
    (BExpr.not (.binop .eq f v)).to_query_mongo =
      .dict [(f, .dict [("$not", .dict [("$eq", v.to_query_mongo)])])] := rfl

/-! ## C6 — boolean-operand validation of the null/missing tests

The claim is false as stated: it quantifies over every non-boolean
operand value, but for a mapping or list operand the generic binary
constructor's literal coercion (`LiteralExpr.from_json`, source lines
419-422 and 110-122) raises its own invalid-query error before the
boolean check runs, and that error does not name the operator.  Only
scalar non-boolean operands reach the operator-naming error of
`Null.__init__`/`Missing.__init__` (source lines 539-543, 559-563). -/

/-- C6 counterexample: a list operand (a non-boolean operand value) makes
null-test and missing-test construction fail with the literal-coercion
invalid-query error, not with the error naming the operator. -/
theorem c6_counterexample :
    Null.init "f" (.list [.int 1, .int 2]) =
      .error (.invalidQuery "Unexpected expression type for json. Expected \"LiteralExpr\".") ∧
    Missing.init "f" (.list [.int 1, .int 2]) =
      .error (.invalidQuery "Unexpected expression type for json. Expected \"LiteralExpr\".") ∧
    Null.init "f" (.list [.int 1, .int 2]) ≠
      .error (.invalidQuery "The operand of \"__null__\" must be either true or false.") ∧
    Missing.init "f" (.list [.int 1, .int 2]) ≠
      .error (.invalidQuery "The operand of \"__missing__\" must be either true or false.") := by
  refine ⟨rfl, rfl, ?_, ?_⟩
  · have e : Null.init "f" (.list [.int 1, .int 2]) =
        .error (.invalidQuery "Unexpected expression type for json. Expected \"LiteralExpr\".") := rfl
    rw [e]
    simp
  · have e : Missing.init "f" (.list [.int 1, .int 2]) =
        .error (.invalidQuery "Unexpected expression type for json. Expected \"LiteralExpr\".") := rfl
    rw [e]
    simp

/-- C6 (amended): constructing a `Null` or `Missing` node from any
non-boolean right operand fails with an invalid-query error — for a
scalar operand (string, int, float, datetime) it is the error naming the
operator, while for a mapping or list operand it is the literal
coercion's error, which does not name the operator — and a boolean right
operand succeeds. -/
theorem c6_null_missing_operand_amended (f : String) (v : JsonVal)
    (h : ∀ b, v ≠ .bool b) :
    (isPyScalar v = true →
      Null.init f v =
        .error (.invalidQuery "The operand of \"__null__\" must be either true or false.") ∧
      Missing.init f v =
        .error (.invalidQuery "The operand of \"__missing__\" must be either true or false.")) ∧
    (isPyScalar v = false →
      Null.init f v =
        .error (.invalidQuery "Unexpected expression type for json. Expected \"LiteralExpr\".") ∧
      Missing.init f v =
        .error (.invalidQuery "Unexpected expression type for json. Expected \"LiteralExpr\".")) ∧
    (∀ b, Null.init f (.bool b) = .ok (.null f b) ∧
      Missing.init f (.bool b) = .ok (.missing f b)) := by
  refine ⟨?_, ?_, fun b => ⟨rfl, rfl⟩⟩
  · intro hs
    cases v with
    | str s => exact ⟨rfl, rfl⟩
    | int n => exact ⟨rfl, rfl⟩
    | float r => exact ⟨rfl, rfl⟩
    | datetime dt => exact ⟨rfl, rfl⟩
    | bool b => exact absurd rfl (h b)
    | list l => simp [isPyScalar] at hs
    | dict d => simp [isPyScalar] at hs
  · intro hs
    cases v with
    | list l => exact ⟨rfl, rfl⟩
    | dict d => exact ⟨rfl, rfl⟩
    | bool b => exact absurd rfl (h b)
    | str s => simp [isPyScalar] at hs
    | int n => simp [isPyScalar] at hs
    | float r => simp [isPyScalar] at hs
    | datetime dt => simp [isPyScalar] at hs

/-- C6 witness: an integer operand is rejected with the operator-naming
error, a list operand with the literal-coercion error, and a boolean
operand is accepted. -/
theorem c6_witness :
    (∀ b, JsonVal.int 3 ≠ .bool b) ∧
    (∀ b, JsonVal.list [] ≠ .bool b) ∧
    Null.init "f" (.int 3) =
      .error (.invalidQuery "The operand of \"__null__\" must be either true or false.") ∧
    Null.init "f" (.list []) =
      .error (.invalidQuery "Unexpected expression type for json. Expected \"LiteralExpr\".") ∧
    Null.init "f" (.bool true) = .ok (.null "f" true) := by
  have h1 : ∀ b, JsonVal.int 3 ≠ JsonVal.bool b := fun b hb => by cases hb
  have h2 : ∀ b, JsonVal.list [] ≠ JsonVal.bool b := fun b hb => by cases hb
  exact ⟨h1, h2,
    ((c6_null_missing_operand_amended "f" (.int 3) h1).1 rfl).1,
    ((c6_null_missing_operand_amended "f" (.list []) h2).2.1 rfl).1,
    ((c6_null_missing_operand_amended "f" (.int 3) h1).2.2 true).1⟩

/-! ## C9 — idempotent re-entry of `from_json` -/

/-- C9: passing an already-constructed boolean expression node back into the
construction entry point `BooleanExpr.from_json` returns the node itself
unchanged, for every node and every fuel. -/
theorem c9_from_json_reentry (fuel : Nat) (e : BExpr) :
    BooleanExpr.from_json fuel (.expr e) = .ok e := rfl

/-! ## C10 — construction-order rendering for the document-store target -/

/-- MongoDB child values are the construction-order map of the child
renderer. -/
theorem mongoVals_eq_map (es : List BExpr) : mongoVals es = es.map BExpr.to_query_mongo := by
  induction es with
  | nil => rfl
  | cons e r ih => simp [mongoVals, ih]

/-- C10: the document-store (MongoDB) renderer emits conjunction and
disjunction children in construction order (no sorting), so permuting the
child list permutes the output list — exhibited on a two-child conjunction
whose MongoDB renderings differ with order while the time-series (InfluxQL)
rendering is order-independent. -/
theorem c10_mongo_order_preserved :
    (∀ es : List BExpr,
      (BExpr.and es).to_query_mongo = .dict [("$and", .list (es.map BExpr.to_query_mongo))] ∧
      (BExpr.or es).to_query_mongo = .dict [("$or", .list (es.map BExpr.to_query_mongo))]) ∧
    (BExpr.and [.binop .eq "env" (.str "prod"), .binop .eq "env" (.str "staging")]).to_query_mongo ≠
      (BExpr.and [.binop .eq "env" (.str "staging"), .binop .eq "env" (.str "prod")]).to_query_mongo ∧
    (BExpr.and [.binop .eq "env" (.str "prod"), .binop .eq "env" (.str "staging")]).to_query_influx =
      (BExpr.and [.binop .eq "env" (.str "staging"), .binop .eq "env" (.str "prod")]).to_query_influx := by
  refine ⟨fun es => ⟨?_, ?_⟩, ?_, rfl⟩
  · simp [BExpr.to_query_mongo, mongoVals_eq_map]
  · simp [BExpr.to_query_mongo, mongoVals_eq_map]
  · intro h
    simp [BExpr.to_query_mongo, mongoVals, Lit.to_query_mongo, BinOp.operator_mongo] at h

/-! ## C8 — regex shorthand -/

/-- A slash-wrapped string starts with `/`. -/
theorem pyStartsWithSlash_wrap (p : String) : pyStartsWithSlash ("/" ++ p ++ "/") = true := by
  have hd : ("/" ++ p ++ "/").data = '/' :: (p.data ++ ['/']) := by simp [String.data_append]
  simp [pyStartsWithSlash, hd]

/-- A slash-wrapped string ends with `/`. -/
theorem pyEndsWithSlash_wrap (p : String) : pyEndsWithSlash ("/" ++ p ++ "/") = true := by
  have hd : ("/" ++ p ++ "/").data = ('/' :: p.data) ++ ['/'] := by
    rw [String.data_append, String.data_append]
    rfl
  unfold pyEndsWithSlash
  rw [hd, List.getLast?_concat]
  rfl

/-- Stripping the first and last character of a slash-wrapped string
recovers the wrapped pattern. -/
theorem pyStripEnds_wrap (p : String) : pyStripEnds ("/" ++ p ++ "/") = p := by
  have hd : ("/" ++ p ++ "/").data = '/' :: (p.data ++ ['/']) := by simp [String.data_append]
  apply String.ext
  simp [pyStripEnds, hd, List.dropLast_concat]

/-- A slash-delimited string value normalizes to the regex-match entry with
the delimiters stripped. -/
theorem normEntry_slash (tag p : String) :
    normEntry tag (.str ("/" ++ p ++ "/")) = .ok [[(tag, .dict [("__regex__", .str p)])]] := by
  simp [normEntry, pyStartsWithSlash_wrap, pyEndsWithSlash_wrap, pyStripEnds_wrap]
  rfl

/-- C8: `normalize({"f": "/ab+c/"})` equals
`normalize({"f": {"__regex__": "ab+c"}})`, and in general a filter entry
binding a slash-delimited string normalizes to the canonical regex-match
form with the delimiters stripped. -/
theorem c8_regex_shorthand :
    (OperatorExpr.normalize_eval_expr_dict [("f", .str "/ab+c/")] =
      OperatorExpr.normalize_eval_expr_dict [("f", .dict [("__regex__", .str "ab+c")])]) ∧
    ∀ (field p : String),
      OperatorExpr.normalize_eval_expr_dict [(field, .str ("/" ++ p ++ "/"))] =
        .ok [(field, .dict [("__regex__", .str p)])] := by
  refine ⟨rfl, fun field p => ?_⟩
  have h1 : normEntries [(field, .str ("/" ++ p ++ "/"))] =
      .ok [[(field, .dict [("__regex__", .str p)])]] := by
    unfold normEntries
    rw [normEntry_slash]
    rfl
  unfold OperatorExpr.normalize_eval_expr_dict
  rw [h1]
  rfl

/-! ## C2 — sorted, order-independent rendering of the string targets -/

/-- Fragment building on a permuted child list yields a permuted fragment
list (when it succeeds). -/
theorem optMapFrags_perm_some (f : BExpr → Option String) :
    ∀ {l l' : List BExpr}, l.Perm l' → ∀ {r : List String}, optMapFrags f l = some r →
      ∃ r', optMapFrags f l' = some r' ∧ r.Perm r' := by
  intro l l' h
  induction h with
  | nil => exact fun hr => ⟨_, hr, List.Perm.refl _⟩
  | @cons x t1 t2 hp ih =>
    intro r hr
    simp only [optMapFrags] at hr ⊢
    cases hfx : f x with
    | none => simp [hfx] at hr
    | some s =>
      simp only [hfx, Option.some_bind] at hr ⊢
      cases hrest : optMapFrags f t1 with
      | none => simp [hrest] at hr
      | some rest =>
        simp only [hrest, Option.some_bind] at hr
        obtain ⟨r', hr', hperm⟩ := ih hrest
        cases hr
        exact ⟨_, by simp [hr'], List.Perm.cons _ hperm⟩
  | @swap x y t =>
    intro r hr
    simp only [optMapFrags] at hr ⊢
    cases hfy : f y with
    | none => simp [hfy] at hr
    | some sy =>
      cases hfx : f x with
      | none => simp [hfx, hfy] at hr
      | some sx =>
        simp only [hfx, hfy, Option.some_bind] at hr ⊢
        cases hrest : optMapFrags f t with
        | none => simp [hrest] at hr
        | some rest =>
          simp only [hrest, Option.some_bind] at hr
          cases hr
          exact ⟨_, rfl, List.Perm.swap _ _ _⟩
  | trans _ _ ih1 ih2 =>
    intro r hr
    obtain ⟨r1, hr1, hp1⟩ := ih1 hr
    obtain ⟨r2, hr2, hp2⟩ := ih2 hr1
    exact ⟨r2, hr2, hp1.trans hp2⟩

/-- Fragment building fails on a permuted child list iff it fails on the
original. -/
theorem optMapFrags_perm_none (f : BExpr → Option String) {l l' : List BExpr}
    (h : l.Perm l') (hn : optMapFrags f l = Option.none) : optMapFrags f l' = Option.none := by
  cases hr' : optMapFrags f l' with
  | none => rfl
  | some r' =>
    obtain ⟨r, hr, _⟩ := optMapFrags_perm_some f h.symm hr'
    rw [hn] at hr
    cases hr

/-- Parenthesize-sort-join is invariant under permutation of the children. -/
theorem sortedJoin_perm (f : BExpr → Option String) (sep : String) {l l' : List BExpr}
    (h : l.Perm l') :
    (optMapFrags f l).map (fun fs => String.intercalate sep (pysorted fs)) =
      (optMapFrags f l').map (fun fs => String.intercalate sep (pysorted fs)) := by
  cases hl : optMapFrags f l with
  | none => rw [optMapFrags_perm_none f h hl]
  | some r =>
    obtain ⟨r', hr', hperm⟩ := optMapFrags_perm_some f h hl
    rw [hr']
    simp [pysorted_perm hperm]

/-- The InfluxQL fragment builder is the generic one instantiated at the
InfluxQL renderer. -/
theorem influxFrags_eq (l : List BExpr) :
    influxFrags l = optMapFrags BExpr.to_query_influx l := by
  induction l with
  | nil => rfl
  | cons e r ih => simp only [influxFrags, optMapFrags, ih]

/-- The pandas fragment builder is the generic one instantiated at the
pandas renderer. -/
theorem pandasFrags_eq (l : List BExpr) :
    pandasFrags l = optMapFrags BExpr.to_query_pandas l := by
  induction l with
  | nil => rfl
  | cons e r ih => simp only [pandasFrags, optMapFrags, ih]

/-- C2: for the time-series (InfluxQL) and tabular-mask (pandas) targets,
conjunction and disjunction rendering parenthesizes each child fragment,
sorts the parenthesized fragments lexicographically by their rendered text
and joins them with the target's infix token — and is therefore identical
on every permutation of the child list. -/
theorem c2_sorted_rendering (es es' : List BExpr) (h : es.Perm es') :
    ((BExpr.and es).to_query_influx =
        (influxFrags es).map (fun fs => String.intercalate " AND " (pysorted fs)) ∧
      (BExpr.or es).to_query_influx =
        (influxFrags es).map (fun fs => String.intercalate " OR " (pysorted fs)) ∧
      (BExpr.and es).to_query_pandas =
        (pandasFrags es).map (fun fs => String.intercalate " & " (pysorted fs)) ∧
      (BExpr.or es).to_query_pandas =
        (pandasFrags es).map (fun fs => String.intercalate " | " (pysorted fs))) ∧
    (BExpr.and es).to_query_influx = (BExpr.and es').to_query_influx ∧
    (BExpr.or es).to_query_influx = (BExpr.or es').to_query_influx ∧
    (BExpr.and es).to_query_pandas = (BExpr.and es').to_query_pandas ∧
    (BExpr.or es).to_query_pandas = (BExpr.or es').to_query_pandas := by
  refine ⟨⟨rfl, rfl, rfl, rfl⟩, ?_, ?_, ?_, ?_⟩ <;>
    simp only [BExpr.to_query_influx, BExpr.to_query_pandas, influxFrags_eq, pandasFrags_eq] <;>
    exact sortedJoin_perm _ _ h

/-- C2 witness: two children rendering `("a" = 1)` and `("b" = 2)` join
identically regardless of construction order. -/
theorem c2_witness :
    ([BExpr.binop .eq "a" (.int 1), BExpr.binop .eq "b" (.int 2)].Perm
      [BExpr.binop .eq "b" (.int 2), BExpr.binop .eq "a" (.int 1)]) ∧
    (BExpr.and [BExpr.binop .eq "a" (.int 1), BExpr.binop .eq "b" (.int 2)]).to_query_influx =
      (BExpr.and [BExpr.binop .eq "b" (.int 2), BExpr.binop .eq "a" (.int 1)]).to_query_influx :=
  ⟨List.Perm.swap _ _ _,
    (c2_sorted_rendering _ _ (List.Perm.swap _ _ _)).2.1⟩

/-! ## C4 — implicit disjunction for list values and the membership operator -/

/-- A canonical leaf entry binding a scalar condition contributes itself. -/
theorem normEntries_leaf (tag op : String) (v : JsonVal) (htag : tag ≠ "__not__")
    (hv : isPyScalar v = true) :
    normEntries [(tag, .dict [(op, v)])] = .ok [[(tag, .dict [(op, v)])]] := by
  have h0 : normEntry tag (.dict [(op, v)]) = normOps tag [(op, v)] := by
    simp only [normEntry]
    rw [if_neg htag]
  have h1 : normOps tag [(op, v)] = .ok [[(tag, .dict [(op, v)])]] := by
    cases v <;> simp [isPyScalar] at hv ⊢ <;> rfl
  unfold normEntries
  rw [h0, h1]
  rfl

/-- Normalizing the expanded per-element equality dicts of a scalar list
returns each of them unchanged. -/
theorem normDicts_eqExprs (tag : String) (vs : List JsonVal) (htag : tag ≠ "__not__")
    (hs : ∀ v ∈ vs, isPyScalar v = true) :
    normDicts (eqExprs tag vs) =
      .ok (vs.map (fun v => [(tag, .dict [("__eq__", v)])])) := by
  induction vs with
  | nil => rfl
  | cons v r ih =>
    have hv : isPyScalar v = true := hs v (by simp)
    have hrest : ∀ w ∈ r, isPyScalar w = true := fun w hw => hs w (by simp [hw])
    rw [show eqExprs tag (v :: r) = .dict [(tag, .dict [("__eq__", v)])] :: eqExprs tag r from rfl]
    simp only [normDicts]
    rw [normEntries_leaf tag "__eq__" v htag hv, ih hrest]
    rfl

/-- C4: a list bound to a non-reserved field name normalizes exactly as the
explicit disjunction of per-element equalities does, and a list under the
membership operator `__in__` produces the same per-element-equality
disjunction. -/
theorem c4_list_expansion (tag : String) (vs : List JsonVal)
    (h : (tag ≠ "__and__" ∧ tag ≠ "__or__" ∧ tag ≠ "__not__") ∧
      ∀ v ∈ vs, isPyScalar v = true) :
    OperatorExpr.normalize_eval_expr_dict [(tag, .list vs)] =
      OperatorExpr.normalize_eval_expr_dict [("__or__", .list (eqExprs tag vs))] ∧
    OperatorExpr.normalize_eval_expr_dict [(tag, .dict [("__in__", .list vs)])] =
      OperatorExpr.normalize_eval_expr_dict [(tag, .list vs)] := by
  obtain ⟨⟨hand, hor, hnot⟩, hs⟩ := h
  have hL : normDicts (eqExprs tag vs) =
      .ok (vs.map (fun v => [(tag, .dict [("__eq__", v)])])) :=
    normDicts_eqExprs tag vs hnot hs
  have hmap : (vs.map (fun v => [(tag, JsonVal.dict [("__eq__", v)])])).map JsonVal.dict =
      eqExprs tag vs := by
    simp only [eqExprs, List.map_map]
    rfl
  have hentry_lhs : normEntry tag (.list vs) = .ok [[("__or__", .list (eqExprs tag vs))]] := by
    simp only [normEntry]
    rw [if_neg hand, if_neg hor]
    rfl
  have hlhs : OperatorExpr.normalize_eval_expr_dict [(tag, .list vs)] =
      .ok [("__or__", .list (eqExprs tag vs))] := by
    unfold OperatorExpr.normalize_eval_expr_dict normEntries
    rw [hentry_lhs]
    rfl
  have hentry_rhs : normEntry "__or__" (.list (eqExprs tag vs)) =
      .ok [[("__or__",
        .list ((vs.map (fun v => [(tag, JsonVal.dict [("__eq__", v)])])).map JsonVal.dict))]] := by
    have h0 : normEntry "__or__" (.list (eqExprs tag vs)) = (do
        let ds ← normDicts (eqExprs tag vs)
        pure [[("__or__", JsonVal.list (ds.map JsonVal.dict))]] : Except QErr (List JsonDict)) := rfl
    rw [h0, hL]
    rfl
  have hrhs : OperatorExpr.normalize_eval_expr_dict [("__or__", .list (eqExprs tag vs))] =
      .ok [("__or__", .list (eqExprs tag vs))] := by
    unfold OperatorExpr.normalize_eval_expr_dict normEntries
    rw [hentry_rhs, hmap]
    rfl
  have hin : OperatorExpr.normalize_eval_expr_dict [(tag, .dict [("__in__", .list vs)])] =
      .ok [("__or__", .list (eqExprs tag vs))] := by
    have h0 : normEntry tag (.dict [("__in__", .list vs)]) = normOps tag [("__in__", .list vs)] := by
      simp only [normEntry]
      rw [if_neg hnot]
    unfold OperatorExpr.normalize_eval_expr_dict normEntries
    rw [h0]
    rfl
  exact ⟨hlhs.trans hrhs.symm, hin.trans hlhs.symm⟩

/-- C4 witness: `{"tag": ["a","b"]}`, `{"__or__": [{"tag": {"__eq__": "a"}},
{"tag": {"__eq__": "b"}}]}` and `{"tag": {"__in__": ["a","b"]}}` all
normalize to the same disjunction. -/
theorem c4_witness :
    (("tag" : String) ≠ "__and__" ∧ ("tag" : String) ≠ "__or__" ∧
        ("tag" : String) ≠ "__not__") ∧
    (∀ v ∈ [JsonVal.str "a", JsonVal.str "b"], isPyScalar v = true) ∧
    OperatorExpr.normalize_eval_expr_dict [("tag", .list [.str "a", .str "b"])] =
      OperatorExpr.normalize_eval_expr_dict
        [("__or__", .list (eqExprs "tag" [.str "a", .str "b"]))] := by
  have h1 : ("tag" : String) ≠ "__and__" ∧ ("tag" : String) ≠ "__or__" ∧
      ("tag" : String) ≠ "__not__" := by
    refine ⟨?_, ?_, ?_⟩ <;> decide
  have h2 : ∀ v ∈ [JsonVal.str "a", JsonVal.str "b"], isPyScalar v = true := by
    decide
  exact ⟨h1, h2, (c4_list_expansion "tag" [.str "a", .str "b"] ⟨h1, h2⟩).1⟩

/-! ## C7 — idempotence of normalization

The claim is false as stated: a non-mapping value bound to the reserved
negation key is rewritten to an equality first (`{'__not__': 5}` becomes
`{'__not__': {'__eq__': 5}}`), and renormalizing that output wraps the
inner mapping again (`{'__not__': {'__eq__': {'__eq__': 5}}}`).  On the
well-formed fragment (`wfFilter`) the normalizer's output is a fixed
point; the lemmas below establish the stability of every canonical shape
the normalizer emits, followed by a strong induction over the value size. -/

/-- Inversion of a successful `Except` bind. -/
theorem bind_ok_inv {α β : Type} {mx : Except QErr α} {f : α → Except QErr β} {r : β}
    (h : (mx >>= f) = .ok r) : ∃ x, mx = .ok x ∧ f x = .ok r := by
  cases mx with
  | error e => simp [Bind.bind, Except.bind] at h
  | ok x => exact ⟨x, rfl, by simpa [Bind.bind, Except.bind] using h⟩

/-- Inversion of a successful `Except` map. -/
theorem map_ok_inv {α β : Type} {mx : Except QErr α} {f : α → β} {r : β}
    (h : mx.map f = .ok r) : ∃ x, mx = .ok x ∧ f x = r := by
  cases mx with
  | error e => simp [Except.map] at h
  | ok x => exact ⟨x, rfl, by simpa [Except.map] using h⟩

/-- Inversion of a successful `pure` in `Except`. -/
theorem pure_ok_inv {α : Type} {x y : α} (h : (pure x : Except QErr α) = .ok y) : x = y := by
  simpa [pure, Except.pure] using h

/-- A single-entry filter normalizes to just that entry's contribution. -/
theorem normEntries_single (tag : String) (v : JsonVal) (es : List JsonDict)
    (h : normEntry tag v = .ok es) : normEntries [(tag, v)] = .ok es := by
  unfold normEntries
  rw [h]
  show (Except.ok (es ++ []) : Except QErr (List JsonDict)) = .ok es
  rw [List.append_nil]

/-- Normalizing a single-entry filter wraps the contribution list with the
final combination rule. -/
theorem normalize_single_list (tag : String) (v : JsonVal) (ds : List JsonDict)
    (h : normEntry tag v = .ok ds) :
    OperatorExpr.normalize_eval_expr_dict [(tag, v)] = .ok (finalizeExprs ds) := by
  unfold OperatorExpr.normalize_eval_expr_dict
  rw [normEntries_single tag v ds h]
  rfl

/-- A canonical leaf `{tag: {op: scalar}}` (with `tag` not the negation key)
is a fixed point of the normalizer. -/
theorem normalize_leaf (tag op : String) (c : JsonVal) (htag : tag ≠ "__not__")
    (hc : isPyScalar c = true) :
    OperatorExpr.normalize_eval_expr_dict [(tag, .dict [(op, c)])] =
      .ok [(tag, .dict [(op, c)])] := by
  unfold OperatorExpr.normalize_eval_expr_dict
  rw [normEntries_leaf tag op c htag hc]
  rfl

/-- Renormalizing a list of already-stable canonical dicts returns them all
unchanged. -/
theorem normDicts_stableList (ds : List JsonDict)
    (hds : ∀ d ∈ ds, OperatorExpr.normalize_eval_expr_dict d = .ok d) :
    normDicts (ds.map .dict) = .ok ds := by
  induction ds with
  | nil => rfl
  | cons d r ih =>
    have hd : OperatorExpr.normalize_eval_expr_dict d = .ok d := hds d (by simp)
    obtain ⟨es0, h0, hfin⟩ := map_ok_inv hd
    rw [show (d :: r).map JsonVal.dict = .dict d :: r.map JsonVal.dict from rfl]
    simp only [normDicts]
    rw [h0, ih (fun x hx => hds x (by simp [hx])), ← hfin]
    rfl

/-- A canonical disjunction of stable canonical dicts is a fixed point of
the normalizer. -/
theorem normalize_or_stable (ds : List JsonDict)
    (hds : ∀ d ∈ ds, OperatorExpr.normalize_eval_expr_dict d = .ok d) :
    OperatorExpr.normalize_eval_expr_dict [("__or__", .list (ds.map .dict))] =
      .ok [("__or__", .list (ds.map .dict))] := by
  have h0 : normEntry "__or__" (.list (ds.map .dict)) = (do
      let ds' ← normDicts (ds.map .dict)
      pure [[("__or__", JsonVal.list (ds'.map JsonVal.dict))]] : Except QErr (List JsonDict)) := rfl
  have h1 : normEntry "__or__" (.list (ds.map .dict)) =
      .ok [[("__or__", JsonVal.list (ds.map JsonVal.dict))]] := by
    rw [h0, normDicts_stableList ds hds]
    rfl
  have h2 := normalize_single_list _ _ _ h1
  exact h2

/-- A canonical conjunction of two or more stable canonical dicts is a fixed
point of the normalizer. -/
theorem normalize_and_stable (ds : List JsonDict)
    (hds : ∀ d ∈ ds, OperatorExpr.normalize_eval_expr_dict d = .ok d) (hlen : 2 ≤ ds.length) :
    OperatorExpr.normalize_eval_expr_dict [("__and__", .list (ds.map .dict))] =
      .ok [("__and__", .list (ds.map .dict))] := by
  have h1 : normEntry "__and__" (JsonVal.list (ds.map JsonVal.dict)) = .ok ds := by
    rw [show normEntry "__and__" (JsonVal.list (ds.map JsonVal.dict)) =
        normDicts (ds.map JsonVal.dict) from rfl, normDicts_stableList ds hds]
  have h2 := normalize_single_list _ _ _ h1
  rw [h2]
  match ds, hlen with
  | a :: b :: rest, _ => rfl

/-- A canonical negation of a stable canonical dict is a fixed point of the
normalizer. -/
theorem normalize_not_stable (g : JsonDict)
    (hg : OperatorExpr.normalize_eval_expr_dict g = .ok g) :
    OperatorExpr.normalize_eval_expr_dict [("__not__", .dict g)] =
      .ok [("__not__", .dict g)] := by
  obtain ⟨es0, h0, hfin⟩ := map_ok_inv hg
  have h1 : normEntry "__not__" (.dict g) = .ok [[("__not__", JsonVal.dict g)]] := by
    rw [show normEntry "__not__" (JsonVal.dict g) = (do
        let ds ← normEntries g
        pure [[("__not__", JsonVal.dict (finalizeExprs ds))]] : Except QErr (List JsonDict)) from rfl,
      h0, ← hfin]
    rfl
  exact normalize_single_list _ _ _ h1

/-- Fusing the two maps of the expanded equality list. -/
theorem eqExprs_eq_map (tag : String) (l : List JsonVal) :
    (l.map (fun v => [(tag, JsonVal.dict [("__eq__", v)])])).map JsonVal.dict = eqExprs tag l := by
  simp only [eqExprs, List.map_map]
  rfl

/-- The expanded per-element-equality disjunction over scalars is a fixed
point of the normalizer. -/
theorem normalize_orEq_stable (tag : String) (l : List JsonVal) (htag : tag ≠ "__not__")
    (hl : l.all isPyScalar = true) :
    OperatorExpr.normalize_eval_expr_dict [("__or__", .list (eqExprs tag l))] =
      .ok [("__or__", .list (eqExprs tag l))] := by
  have hds : ∀ d ∈ l.map (fun v => [(tag, JsonVal.dict [("__eq__", v)])]),
      OperatorExpr.normalize_eval_expr_dict d = .ok d := by
    intro d hd
    rw [List.mem_map] at hd
    obtain ⟨v, hv, rfl⟩ := hd
    exact normalize_leaf tag "__eq__" v htag ((List.all_eq_true.mp hl) v hv)
  have := normalize_or_stable _ hds
  rwa [eqExprs_eq_map] at this

/-- Every entry a well-formed operator mapping contributes is a fixed point
of the normalizer. -/
theorem normOps_stable (tag : String) (d : JsonDict) (htag : tag ≠ "__not__")
    (hwf : wfConds d = true) :
    ∀ es, normOps tag d = .ok es → ∀ e ∈ es, OperatorExpr.normalize_eval_expr_dict e = .ok e := by
  induction d with
  | nil =>
    intro es h e he
    rw [show normOps tag [] = .ok [] from rfl] at h
    cases h
    cases he
  | cons oc r ih =>
    obtain ⟨op, c⟩ := oc
    intro es h e he
    simp only [normOps] at h
    obtain ⟨e1, h1, h'⟩ := bind_ok_inv h
    obtain ⟨es2, h2, h''⟩ := bind_ok_inv h'
    have hes : e1 :: es2 = es := pure_ok_inv h''
    simp only [wfConds, Bool.and_eq_true] at hwf
    rw [← hes] at he
    rcases List.mem_cons.mp he with he | he
    · subst he
      rcases hwf.1 with hsc
      cases c with
      | str s => cases h1; exact normalize_leaf tag op (.str s) htag rfl
      | bool b => cases h1; exact normalize_leaf tag op (.bool b) htag rfl
      | int n => cases h1; exact normalize_leaf tag op (.int n) htag rfl
      | float f => cases h1; exact normalize_leaf tag op (.float f) htag rfl
      | datetime dt => cases h1; exact normalize_leaf tag op (.datetime dt) htag rfl
      | dict dd => simp [isPyScalar, isScalarList, normOp] at hsc h1
      | list l =>
        have hall : l.all isPyScalar = true := by
          simpa [isPyScalar, isScalarList] using hsc
        by_cases hin : op = "__in__"
        · subst hin
          rw [show normOp tag "__in__" (JsonVal.list l) =
              .ok [("__or__", JsonVal.list (eqExprs tag l))] by simp [normOp]; rfl] at h1
          cases h1
          exact normalize_orEq_stable tag l htag hall
        · rw [show normOp tag op (JsonVal.list l) =
              .error (.invalidQuery ("\"" ++ op ++ "\" operator cannot be applied on a list.")) by
                simp [normOp, hin]; rfl] at h1
          cases h1
    · exact ih hwf.2 es2 h2 e he

/-- Every JSON value has positive size. -/
theorem jsize_pos (v : JsonVal) : 1 ≤ jsize v := by
  cases v <;> simp [jsize]

/-- Strong induction over value size: on well-formed filters, every
contribution of the normalizer, and hence its whole output, is a fixed
point of the normalizer. -/
theorem norm_idem_strong :
    ∀ n : Nat,
      (∀ (tag : String) (v : JsonVal), jsize v ≤ n → wfEntry tag v = true →
        ∀ es, normEntry tag v = .ok es →
          ∀ e ∈ es, OperatorExpr.normalize_eval_expr_dict e = .ok e) ∧
      (∀ f : JsonDict, jsizeD f ≤ n → wfFilter f = true →
        ∀ es, normEntries f = .ok es →
          ∀ e ∈ es, OperatorExpr.normalize_eval_expr_dict e = .ok e) ∧
      (∀ f : JsonDict, jsizeD f ≤ n → wfFilter f = true →
        ∀ g, OperatorExpr.normalize_eval_expr_dict f = .ok g →
          OperatorExpr.normalize_eval_expr_dict g = .ok g) ∧
      (∀ l : List JsonVal, jsizeL l ≤ n → wfElems l = true →
        ∀ gs, normDicts l = .ok gs →
          ∀ g ∈ gs, OperatorExpr.normalize_eval_expr_dict g = .ok g) := by
  intro n
  induction n using Nat.strong_induction_on with
  | _ n IH =>
  have hA : ∀ (tag : String) (v : JsonVal), jsize v ≤ n → wfEntry tag v = true →
      ∀ es, normEntry tag v = .ok es →
        ∀ e ∈ es, OperatorExpr.normalize_eval_expr_dict e = .ok e := by
    intro tag v hsz hwf es hne e he
    cases v with
    | str s =>
      have htag : tag ≠ "__not__" := by simpa [wfEntry, bne_iff_ne] using hwf
      simp only [normEntry] at hne
      by_cases hsl : (pyStartsWithSlash s && pyEndsWithSlash s) = true
      · rw [if_pos hsl] at hne
        have hes := pure_ok_inv hne
        rw [← hes] at he
        rcases List.mem_cons.mp he with he | he
        · subst he
          exact normalize_leaf tag "__regex__" (.str (pyStripEnds s)) htag rfl
        · cases he
      · rw [if_neg hsl] at hne
        have hes := pure_ok_inv hne
        rw [← hes] at he
        rcases List.mem_cons.mp he with he | he
        · subst he
          exact normalize_leaf tag "__eq__" (.str s) htag rfl
        · cases he
    | bool b =>
      have htag : tag ≠ "__not__" := by simpa [wfEntry, bne_iff_ne] using hwf
      simp only [normEntry] at hne
      have hes := pure_ok_inv hne
      rw [← hes] at he
      rcases List.mem_cons.mp he with he | he
      · subst he
        exact normalize_leaf tag "__eq__" (.bool b) htag rfl
      · cases he
    | int m =>
      have htag : tag ≠ "__not__" := by simpa [wfEntry, bne_iff_ne] using hwf
      simp only [normEntry] at hne
      have hes := pure_ok_inv hne
      rw [← hes] at he
      rcases List.mem_cons.mp he with he | he
      · subst he
        exact normalize_leaf tag "__eq__" (.int m) htag rfl
      · cases he
    | float r =>
      have htag : tag ≠ "__not__" := by simpa [wfEntry, bne_iff_ne] using hwf
      simp only [normEntry] at hne
      have hes := pure_ok_inv hne
      rw [← hes] at he
      rcases List.mem_cons.mp he with he | he
      · subst he
        exact normalize_leaf tag "__eq__" (.float r) htag rfl
      · cases he
    | datetime dt =>
      simp only [normEntry] at hne
      cases hne
    | list l =>
      simp only [normEntry] at hne
      simp only [jsize] at hsz
      have hn1 : 1 ≤ n := by omega
      have hszl : jsizeL l ≤ n - 1 := by omega
      have hlt : n - 1 < n := by omega
      by_cases hand : tag = "__and__"
      · rw [if_pos hand] at hne
        have hwfl : wfElems l = true := by simpa [wfEntry, hand] using hwf
        exact (IH (n - 1) hlt).2.2.2 l hszl hwfl es hne e he
      · by_cases hor : tag = "__or__"
        · rw [if_neg hand, if_pos hor] at hne
          obtain ⟨ds, hds, h'⟩ := bind_ok_inv hne
          have hes := pure_ok_inv h'
          rw [← hes] at he
          rcases List.mem_cons.mp he with he | he
          · subst he
            have hwfl : wfElems l = true := by simpa [wfEntry, hor] using hwf
            have hstab : ∀ d ∈ ds, OperatorExpr.normalize_eval_expr_dict d = .ok d :=
              fun d hd => (IH (n - 1) hlt).2.2.2 l hszl hwfl ds hds d hd
            exact normalize_or_stable ds hstab
          · cases he
        · rw [if_neg hand, if_neg hor] at hne
          have hes := pure_ok_inv hne
          rw [← hes] at he
          rcases List.mem_cons.mp he with he | he
          · subst he
            have hcond : tag ≠ "__not__" ∧ l.all isPyScalar = true := by
              simpa [wfEntry, hand, hor, Bool.and_eq_true, bne_iff_ne] using hwf
            exact normalize_orEq_stable tag l hcond.1 hcond.2
          · cases he
    | dict d =>
      simp only [normEntry] at hne
      simp only [jsize] at hsz
      have hn1 : 1 ≤ n := by omega
      have hszd : jsizeD d ≤ n - 1 := by omega
      have hlt : n - 1 < n := by omega
      by_cases hnot : tag = "__not__"
      · rw [if_pos hnot] at hne
        obtain ⟨ds, hds, h'⟩ := bind_ok_inv hne
        have hes := pure_ok_inv h'
        rw [← hes] at he
        rcases List.mem_cons.mp he with he | he
        · subst he
          have hwfd : wfFilter d = true := by simpa [wfEntry, hnot] using hwf
          have hnd : OperatorExpr.normalize_eval_expr_dict d = .ok (finalizeExprs ds) := by
            unfold OperatorExpr.normalize_eval_expr_dict
            rw [hds]
            rfl
          have hstab := (IH (n - 1) hlt).2.2.1 d hszd hwfd (finalizeExprs ds) hnd
          exact normalize_not_stable _ hstab
        · cases he
      · rw [if_neg hnot] at hne
        have hwfc : wfConds d = true := by simpa [wfEntry, hnot] using hwf
        exact normOps_stable tag d hnot hwfc es hne e he
  have hB : ∀ f : JsonDict, jsizeD f ≤ n → wfFilter f = true →
      ∀ es, normEntries f = .ok es →
        ∀ e ∈ es, OperatorExpr.normalize_eval_expr_dict e = .ok e := by
    intro f
    induction f with
    | nil =>
      intro _ _ es hne e he
      have hes : ([] : List JsonDict) = es := pure_ok_inv hne
      rw [← hes] at he
      cases he
    | cons tv rest ihf =>
      obtain ⟨tag, v⟩ := tv
      intro hsz hwf es hne e he
      simp only [normEntries] at hne
      obtain ⟨es1, h1, h'⟩ := bind_ok_inv hne
      obtain ⟨es2, h2, h''⟩ := bind_ok_inv h'
      have hes : es1 ++ es2 = es := pure_ok_inv h''
      simp only [wfFilter, Bool.and_eq_true] at hwf
      simp only [jsizeD] at hsz
      have hsz1 : jsize v ≤ n := by omega
      have hsz2 : jsizeD rest ≤ n := by omega
      rw [← hes] at he
      rcases List.mem_append.mp he with he | he
      · exact hA tag v hsz1 hwf.1 es1 h1 e he
      · exact ihf hsz2 hwf.2 es2 h2 e he
  have hC : ∀ f : JsonDict, jsizeD f ≤ n → wfFilter f = true →
      ∀ g, OperatorExpr.normalize_eval_expr_dict f = .ok g →
        OperatorExpr.normalize_eval_expr_dict g = .ok g := by
    intro f hsz hwf g hng
    obtain ⟨es, hes, hfin⟩ := map_ok_inv hng
    rcases es with _ | ⟨a, rest0⟩
    · rw [← hfin]
      rfl
    rcases rest0 with _ | ⟨b, rest⟩
    · rw [← hfin]
      exact hB f hsz hwf [a] hes a (by simp)
    · have hstab : ∀ d ∈ a :: b :: rest, OperatorExpr.normalize_eval_expr_dict d = .ok d :=
        fun d hd => hB f hsz hwf _ hes d hd
      have hand := normalize_and_stable (a :: b :: rest) hstab (by simp)
      rw [← hfin]
      exact hand
  have hD : ∀ l : List JsonVal, jsizeL l ≤ n → wfElems l = true →
      ∀ gs, normDicts l = .ok gs →
        ∀ g ∈ gs, OperatorExpr.normalize_eval_expr_dict g = .ok g := by
    intro l
    induction l with
    | nil =>
      intro _ _ gs hng g hg
      have hgs : ([] : List JsonDict) = gs := pure_ok_inv hng
      rw [← hgs] at hg
      cases hg
    | cons v r ihl =>
      intro hsz hwf gs hng g hg
      cases v with
      | dict d =>
        simp only [normDicts] at hng
        obtain ⟨ds, hds, h'⟩ := bind_ok_inv hng
        obtain ⟨gs2, hgs2, h''⟩ := bind_ok_inv h'
        have hgs : finalizeExprs ds :: gs2 = gs := pure_ok_inv h''
        simp only [wfElems, Bool.and_eq_true] at hwf
        simp only [jsizeL, jsize] at hsz
        rw [← hgs] at hg
        rcases List.mem_cons.mp hg with hg | hg
        · subst hg
          have hnd : OperatorExpr.normalize_eval_expr_dict d = .ok (finalizeExprs ds) := by
            unfold OperatorExpr.normalize_eval_expr_dict
            rw [hds]
            rfl
          have hszd : jsizeD d < n := by omega
          exact (IH (jsizeD d) hszd).2.2.1 d (le_refl _) hwf.1 _ hnd
        · have hszr : jsizeL r ≤ n := by omega
          exact ihl hszr hwf.2 gs2 hgs2 g hg
      | str s => simp [wfElems] at hwf
      | bool b => simp [wfElems] at hwf
      | int m => simp [wfElems] at hwf
      | float fr => simp [wfElems] at hwf
      | datetime dt => simp [wfElems] at hwf
      | list l2 => simp [wfElems] at hwf
  exact ⟨hA, hB, hC, hD⟩

/-- C7 counterexample: normalization is not idempotent.  The filter
`{"__not__": 5}` normalizes successfully to `{"__not__": {"__eq__": 5}}`,
but renormalizing that output wraps the inner mapping in a second equality,
yielding the different dict `{"__not__": {"__eq__": {"__eq__": 5}}}`. -/
theorem c7_counterexample :
    OperatorExpr.normalize_eval_expr_dict [("__not__", .int 5)] =
      .ok [("__not__", .dict [("__eq__", .int 5)])] ∧
    OperatorExpr.normalize_eval_expr_dict [("__not__", .dict [("__eq__", .int 5)])] =
      .ok [("__not__", .dict [("__eq__", .dict [("__eq__", .int 5)])])] ∧
    ([("__not__", JsonVal.dict [("__eq__", JsonVal.int 5)])] : JsonDict) ≠
      [("__not__", .dict [("__eq__", .dict [("__eq__", .int 5)])])] := by
  refine ⟨rfl, rfl, ?_⟩
  intro h
  simp at h

/-- C7 (amended): normalization is idempotent on well-formed filters —
those in which every value bound to the reserved negation key is itself a
mapping, every list bound to a plain field name or to the membership
operator holds only scalars, and every element of a list bound to a
logical key is recursively such a filter.  For these, when normalization
succeeds, normalizing the result returns it unchanged. -/
theorem c7_idempotent_amended (f : JsonDict) (hwf : wfFilter f = true) (g : JsonDict)
    (h : OperatorExpr.normalize_eval_expr_dict f = .ok g) :
    OperatorExpr.normalize_eval_expr_dict g = .ok g :=
  (norm_idem_strong (jsizeD f)).2.2.1 f (le_refl _) hwf g h

/-- C7 witness: the example filter is well formed, normalizes to the
two-branch conjunction, and renormalizing that output is the identity. -/
theorem c7_witness :
    wfFilter exampleFilter1 = true ∧
    OperatorExpr.normalize_eval_expr_dict exampleFilter1 = .ok exampleFilter1Canonical ∧
    OperatorExpr.normalize_eval_expr_dict exampleFilter1Canonical = .ok exampleFilter1Canonical :=
  ⟨rfl, rfl, c7_idempotent_amended exampleFilter1 rfl exampleFilter1Canonical rfl⟩
